import Mathlib

/-!
Verification development for the definition-cache core of `src/my-app/App.js`
(a React Native vocabulary app).  The JavaScript source is shallowly embedded:
pure helpers become Lean functions, the stateful cache / history / favorites
operations become explicit state-passing functions, and the asynchronous
collaborators (AsyncStorage reads and writes, the network fetch) become
explicit oracle parameters recording whether the operation succeeds and what
it returns.  JavaScript numbers that the app uses as integers (lengths,
`Date.now()` timestamps) are embedded as `Int` / `Nat`; `NaN` produced by
`parseInt` is embedded as `Option.none`.
-/

/-! ## JavaScript string primitives -/

/-- Whitespace recognised by JavaScript `trim` / `parseInt` (ASCII part plus
NBSP, which is enough for a faithful model of the characters the app can
meet). -/
def isJSWS (c : Char) : Bool :=
  c = ' ' || c = '\t' || c = '\n' || c = '\x0d' || c = '\x0b' || c = '\x0c' || c = '\xa0'

/-- JavaScript `String.prototype.trim`. -/
def trimJS (s : String) : String :=
  String.mk (((s.data.dropWhile isJSWS).reverse.dropWhile isJSWS).reverse)

/-- JavaScript `String.prototype.toLowerCase` (ASCII model, matching
`Char.toLower`). -/
def toLowerJS (s : String) : String :=
  String.mk (s.data.map Char.toLower)

/-! ## JavaScript number printing and parsing -/

/-- Lower-case hexadecimal digit characters, also used for decimal digits. -/
def hexChar : Nat → Char
  | 0 => '0' | 1 => '1' | 2 => '2' | 3 => '3' | 4 => '4'
  | 5 => '5' | 6 => '6' | 7 => '7' | 8 => '8' | 9 => '9'
  | 10 => 'a' | 11 => 'b' | 12 => 'c' | 13 => 'd' | 14 => 'e' | _ => 'f'

/-- Decimal digit string of a natural number (fuel-indexed so that the
definition is structurally recursive and computable by `decide`). -/
def natStrAux : Nat → Nat → List Char
  | 0, _ => []
  | fuel + 1, n =>
    if n < 10 then [hexChar n]
    else natStrAux fuel (n / 10) ++ [hexChar (n % 10)]

/-- Decimal digit string of a natural number, as JavaScript prints it. -/
def natStr (n : Nat) : List Char := natStrAux (n + 1) n

/-- Decimal string of an integer, as JavaScript / `JSON.stringify` prints it. -/
def intStr (i : Int) : List Char :=
  if i < 0 then '-' :: natStr i.natAbs else natStr i.natAbs

/-- Numeric value of a digit list (most significant first). -/
def digitsVal (ds : List Char) : Nat :=
  ds.foldl (fun a c => a * 10 + (c.toNat - 48)) 0

/-- Longest prefix of decimal digits. -/
def takeDigits : List Char → List Char
  | [] => []
  | c :: cs => if c.isDigit then c :: takeDigits cs else []

/-- Value of the leading digit run, `none` when there is none (JavaScript
`parseInt` yields `NaN` then). -/
def parseDigits (cs : List Char) : Option Nat :=
  match takeDigits cs with
  | [] => none
  | ds => some (digitsVal ds)

/-- JavaScript `parseInt(s, 10)`: skip leading whitespace, optional sign,
value of the leading digit run; `none` models `NaN`. -/
def parseIntJS (s : String) : Option Int :=
  match s.data.dropWhile isJSWS with
  | '-' :: rest => (parseDigits rest).map (fun n => -(n : Int))
  | '+' :: rest => (parseDigits rest).map (fun n => (n : Int))
  | cs => (parseDigits cs).map (fun n => (n : Int))

/-- A JavaScript value that can sit in the `length` field: the form state is a
string, replayed history items carry a number. -/
inductive LenVal where
  | str (s : String)
  | num (n : Int)
deriving DecidableEq, Repr

/-- JavaScript truthiness of a `LenVal` (`""` and `0` are falsy). -/
def lenTruthy : LenVal → Bool
  | .str s => s ≠ ""
  | .num n => n ≠ 0

/-- JavaScript `parseInt(v, 10)` on a `LenVal`; a number argument is printed
and re-parsed, which is the identity on integers. -/
def parseIntLV : LenVal → Option Int
  | .str s => parseIntJS s
  | .num n => some n

/-- JavaScript `a || d` for an optional string field: the default is used when
the field is absent or the empty string. -/
def orElseStr (o : Option String) (d : String) : String :=
  match o with
  | none => d
  | some s => if s = "" then d else s

/-! ## Request parameters and cache-key derivation (`App.js` 74–90) -/

/-- Parameters of a define request as `generateCacheKey` receives them;
`none` embeds an absent (`undefined`) field. -/
structure RequestParams where
  word : Option String
  length : Option LenVal
  tone : Option String
  context : Option String
  lang : Option String
deriving DecidableEq, Repr

/-- The normalized `keyParams` object built by `generateCacheKey`:
`length = none` embeds `NaN` (from `parseInt` on an unparseable value). -/
structure KeyParams where
  word : String
  length : Option Int
  tone : String
  context : String
  lang : String
deriving DecidableEq, Repr

/-- Embedding of `parseInt(params.length || 0, 10)`. -/
def normLength (l : Option LenVal) : Option Int :=
  match l with
  | none => some 0
  | some v => if lenTruthy v then parseIntLV v else some 0

/-- The `keyParams` computation of `generateCacheKey` (`App.js` 76–82). -/
def normalizeParams (p : RequestParams) : KeyParams where
  word := toLowerJS (trimJS (orElseStr p.word ""))
  length := normLength p.length
  tone := toLowerJS (orElseStr p.tone "neutral")
  context := toLowerJS (orElseStr p.context "none")
  lang := toLowerJS (orElseStr p.lang "auto")

/-! `JSON.stringify` of the sorted `keyParams` object.  Field names sort as
`context < lang < length < tone < word`. -/

/-- One character of `JSON.stringify` string escaping. -/
def escChar (c : Char) : List Char :=
  if c = '"' then ['\\', '"']
  else if c = '\\' then ['\\', '\\']
  else if c = '\x08' then ['\\', 'b']
  else if c = '\t' then ['\\', 't']
  else if c = '\n' then ['\\', 'n']
  else if c = '\x0c' then ['\\', 'f']
  else if c = '\x0d' then ['\\', 'r']
  else if c.toNat < 32 then
    ['\\', 'u', '0', '0', hexChar (c.toNat / 16), hexChar (c.toNat % 16)]
  else [c]

/-- Escaping of a character list, as `JSON.stringify` does it. -/
def escL : List Char → List Char
  | [] => []
  | c :: cs => escChar c ++ escL cs

/-- A JSON string literal (with surrounding quotes). -/
def jsonStrL (s : String) : List Char :=
  '"' :: (escL s.data ++ ['"'])

/-- A JSON number; `JSON.stringify(NaN)` prints `null`. -/
def jsonNum : Option Int → List Char
  | none => ['n', 'u', 'l', 'l']
  | some i => intStr i

def litCtx : List Char := "\x7b\"context\":".data
def litLang : List Char := ",\"lang\":".data
def litLen : List Char := ",\"length\":".data
def litTone : List Char := ",\"tone\":".data
def litWord : List Char := ",\"word\":".data

/-- Serialization `JSON.stringify(sortedParams)` from `generateCacheKey`
(`App.js` 83–89). -/
def stringifyKeyParams (k : KeyParams) : List Char :=
  litCtx ++ jsonStrL k.context ++ litLang ++ jsonStrL k.lang ++
  litLen ++ jsonNum k.length ++ litTone ++ jsonStrL k.tone ++
  litWord ++ jsonStrL k.word ++ ['\x7d']

/-- Storage-key namespace for cache entries (`CACHE_KEY_PREFIX` in the
source; that identifier itself is not usable here). -/
def cacheKeyNS : List Char := "@DefinitionCache:".data

/-- Key derivation `generateCacheKey` (`App.js` 74–90). -/
def generateCacheKey (p : RequestParams) : String :=
  String.mk (cacheKeyNS ++ stringifyKeyParams (normalizeParams p))

/-! ## A decoder for the serialized key, used to prove key injectivity -/

/-- Drop an expected literal from the front, `none` when it does not match. -/
def stripPre : List Char → List Char → Option (List Char)
  | [], cs => some cs
  | _ :: _, [] => none
  | p :: ps, c :: cs => if c = p then stripPre ps cs else none

/-- Split a raw escaped JSON string segment at its (unescaped) closing quote,
returning the raw segment and the rest after the quote. -/
def scanEsc : List Char → Option (List Char × List Char)
  | [] => none
  | c :: rest =>
    if c = '"' then some ([], rest)
    else if c = '\\' then
      match rest with
      | [] => none
      | d :: rest2 => (scanEsc rest2).map (fun pr => (c :: d :: pr.1, pr.2))
    else (scanEsc rest).map (fun pr => (c :: pr.1, pr.2))

/-- Value of a lower-case hexadecimal digit. -/
def hexVal (c : Char) : Option Nat :=
  if c.isDigit then some (c.toNat - 48)
  else if 'a' ≤ c && c ≤ 'f' then some (c.toNat - 87)
  else none

/-- Code point denoted by a single-character JSON escape. -/
def escCode (c : Char) : Option Nat :=
  if c = '"' then some 34
  else if c = '\\' then some 92
  else if c = 'b' then some 8
  else if c = 't' then some 9
  else if c = 'n' then some 10
  else if c = 'f' then some 12
  else if c = 'r' then some 13
  else none

/-- Decode a raw escaped JSON string segment to its code points. -/
def unesc : List Char → Option (List Nat)
  | [] => some []
  | c :: rest =>
    if c = '\\' then
      match rest with
      | [] => none
      | d :: rest2 =>
        if d = 'u' then
          match rest2 with
          | h1 :: h2 :: h3 :: h4 :: rest3 =>
            match hexVal h1, hexVal h2, hexVal h3, hexVal h4 with
            | some v1, some v2, some v3, some v4 =>
              (unesc rest3).map (fun l => (((v1 * 16 + v2) * 16 + v3) * 16 + v4) :: l)
            | _, _, _, _ => none
          | _ => none
        else
          match escCode d with
          | some n => (unesc rest2).map (fun l => n :: l)
          | none => none
    else (unesc rest).map (fun l => c.toNat :: l)

/-- Split at the first comma (kept on the right). -/
def takeUntilComma : List Char → List Char × List Char
  | [] => ([], [])
  | c :: cs =>
    if c = ',' then ([], c :: cs)
    else
      let pr := takeUntilComma cs
      (c :: pr.1, pr.2)

/-- All characters are decimal digits. -/
def isDigitsL (cs : List Char) : Bool := cs.all Char.isDigit

/-- Decode the number segment of the key: `null` (= `NaN`), or a decimal
integer. -/
def decodeNum (cs : List Char) : Option (Option Int) :=
  if cs = ['n', 'u', 'l', 'l'] then some none
  else if cs = [] then none
  else if cs.head? = some '-' then
    if cs.tail ≠ [] && isDigitsL cs.tail then some (some (-(digitsVal cs.tail : Int)))
    else none
  else if isDigitsL cs then some (some ((digitsVal cs : Int)))
  else none

def nsCtxQ : List Char := "@DefinitionCache:\x7b\"context\":\"".data
def langQ : List Char := ",\"lang\":\"".data
def lenPre : List Char := ",\"length\":".data
def toneQ : List Char := "\"tone\":\"".data
def wordQ : List Char := ",\"word\":\"".data

/-- Raw tone and word segments plus end-of-input check (decoder back half). -/
def parseKeyRawB (r6 : List Char) : Option (List Char × List Char) :=
  (stripPre (',' :: toneQ) r6).bind fun r7 =>
  (scanEsc r7).bind fun pt =>
  (stripPre wordQ pt.2).bind fun r9 =>
  (scanEsc r9).bind fun pw =>
  if pw.2 = ['\x7d'] then some (pt.1, pw.1) else none

/-- Raw context, lang, number, tone and word segments of a serialized key. -/
def parseKeyRaw (cs : List Char) :
    Option (List Char × List Char × List Char × List Char × List Char) :=
  (stripPre nsCtxQ cs).bind fun r1 =>
  (scanEsc r1).bind fun pc =>
  (stripPre langQ pc.2).bind fun r3 =>
  (scanEsc r3).bind fun pl =>
  (stripPre lenPre pl.2).bind fun r5 =>
  (parseKeyRawB (takeUntilComma r5).2).bind fun pb =>
  some (pc.1, pl.1, (takeUntilComma r5).1, pb.1, pb.2)

/-- Decoder for a full serialized cache key, inverse to `generateCacheKey` on
normalized parameters (string fields come back as code-point lists). -/
def parseKeyL (cs : List Char) :
    Option (List Nat × List Nat × Option Int × List Nat × List Nat) :=
  (parseKeyRaw cs).bind fun segs =>
  (unesc segs.1).bind fun c =>
  (unesc segs.2.1).bind fun l =>
  (decodeNum segs.2.2.1).bind fun n =>
  (unesc segs.2.2.2.1).bind fun t =>
  (unesc segs.2.2.2.2).map fun w => (c, l, n, t, w)

/-! ## Toasts and the cache data model -/

/-- A user-visible notice (`showToast(message, type)`). -/
structure Toast where
  message : String
  kind : String
deriving DecidableEq, Repr

/-- A cached / displayed definition result.  `resultText` is the definition
body, `tone`/`context`/`effectiveLang` flatten the response `config` object,
`requestedLength` and `cacheHit` are added by `handleDefine`, and `savedAt`
is added by `saveToCache`. -/
structure ResultData where
  word : String
  resultText : String
  actualLength : Option Nat
  status : Option String
  tone : Option String
  context : Option String
  effectiveLang : Option String
  requestedLength : Int
  cacheHit : Bool
  savedAt : Option Nat
deriving DecidableEq, Repr

/-- The in-memory cache index (`definitionsCacheIndex`), an association list
from cache key to last-write timestamp; JavaScript object key order is not
observable through the app's operations, so an assoc list with
remove-then-prepend update is a faithful model. -/
def idxLookup (idx : List (String × Nat)) (k : String) : Option Nat :=
  (idx.find? (fun e => e.1 = k)).map (fun e => e.2)

/-- Deletion (`delete newIndex[cacheKey]`). -/
def idxRemove (idx : List (String × Nat)) (k : String) : List (String × Nat) :=
  idx.filter (fun e => !(e.1 = k))

/-- Update (`{...prev, [cacheKey]: now}`). -/
def idxInsert (idx : List (String × Nat)) (k : String) (v : Nat) : List (String × Nat) :=
  (k, v) :: idxRemove idx k

/-- The membership test `definitionsCacheIndex[cacheKey]` under JavaScript
truthiness: an entry with value `0` is falsy.  (In the app every stored value
is a `Date.now()` timestamp, which is never `0`.) -/
def idxTruthy (idx : List (String × Nat)) (k : String) : Bool :=
  match idxLookup idx k with
  | some v => v ≠ 0
  | none => false

/-- The persistent entry store (AsyncStorage restricted to cache-entry keys),
holding parsed `ResultData` payloads. -/
def storeLookup (st : List (String × ResultData)) (k : String) : Option ResultData :=
  (st.find? (fun e => e.1 = k)).map (fun e => e.2)

/-- Write `AsyncStorage.setItem` on a cache-entry key. -/
def storeInsert (st : List (String × ResultData)) (k : String) (d : ResultData) :
    List (String × ResultData) :=
  (k, d) :: st.filter (fun e => !(e.1 = k))

/-- Bulk removal `AsyncStorage.multiRemove`. -/
def storeRemoveMany (st : List (String × ResultData)) (ks : List String) :
    List (String × ResultData) :=
  st.filter (fun e => !(decide (e.1 ∈ ks)))

/-- In-memory cache index plus the backing entry store. -/
structure CacheState where
  index : List (String × Nat)
  store : List (String × ResultData)
deriving DecidableEq, Repr

/-! ## Definition-cache operations (`App.js` 138–209) -/

/-- Lookup `getCachedDefinition` (`App.js` 138–174).  `loaded` is
`isInitialDataLoaded`; `readFails` tells whether `AsyncStorage.getItem` (or
`JSON.parse`) throws.  Returns the result handed to the caller and the new
cache state. -/
def getCachedDefinition (loaded readFails : Bool) (cs : CacheState) (p : RequestParams) :
    Option ResultData × CacheState :=
  if !loaded then (none, cs)
  else
    let key := generateCacheKey p
    if !idxTruthy cs.index key then (none, cs)
    else if readFails then (none, { cs with index := idxRemove cs.index key })
    else
      match storeLookup cs.store key with
      | some d => (some { d with cacheHit := true }, cs)
      | none => (none, { cs with index := idxRemove cs.index key })

/-- Write path `saveToCache` (`App.js` 176–190).  `writeOk` tells whether
`AsyncStorage.setItem` succeeds; `nowData` and `nowIdx` are the two
`Date.now()` reads (entry `savedAt` and index timestamp).  Returns the new
cache state and the toast shown on failure. -/
def saveToCache (writeOk : Bool) (nowData nowIdx : Nat) (cs : CacheState)
    (p : RequestParams) (r : ResultData) : CacheState × Option Toast :=
  let key := generateCacheKey p
  if writeOk then
    ({ index := idxInsert cs.index key nowIdx,
       store := storeInsert cs.store key { r with savedAt := some nowData } }, none)
  else
    (cs, some { message := "Could not save definition locally.", kind := "error" })

/-- Bulk clear `clearCache` (`App.js` 192–209).  `removeOk` tells whether
`AsyncStorage.multiRemove` succeeds (it can only throw when it is called, on
a nonempty key list; store contents after a failed bulk removal are modelled
as unchanged).  Returns the final value of `clearedCount`, the new cache
state and the toast. -/
def clearCache (removeOk : Bool) (cs : CacheState) : Nat × CacheState × Toast :=
  let keys := cs.index.map (fun e => e.1)
  if keys.length > 0 && !removeOk then
    (0, { index := [], store := cs.store },
      { message := "Cache clear failed. Some items might remain.", kind := "error" })
  else
    (keys.length, { index := [], store := storeRemoveMany cs.store keys },
      { message := String.mk (natStr keys.length) ++ " definition(s) cleared from cache.",
        kind := "success" })

/-! ## History ledger (`App.js` 211–231) -/

/-- One history entry; the `result` subobject is flattened into `res*`
fields. -/
structure HistoryItem where
  word : String
  length : LenVal
  tone : Option String
  context : Option String
  lang : Option String
  timestamp : Nat
  resActualLength : Option Nat
  resStatus : Option String
  resEffectiveLang : Option String
deriving DecidableEq, Repr

/-- The normalized identity tuple used by `addToHistory`'s duplicate filter:
case-insensitive on `word`/`tone`/`context`/`lang` (absent means `''`),
strict (`===`) on `length`. -/
def identTuple (h : HistoryItem) : String × LenVal × String × String × String :=
  (toLowerJS h.word, h.length, toLowerJS (h.tone.getD ""),
    toLowerJS (h.context.getD ""), toLowerJS (h.lang.getD ""))

def HISTORY_MAX_ITEMS : Nat := 50

/-- Recording `addToHistory` (`App.js` 211–231).  `item = none` embeds a missing
argument; a `word` equal to `""` is falsy (`!item.word`). -/
def addToHistory (hist : List HistoryItem) (item : Option HistoryItem) (now : Nat) :
    List HistoryItem :=
  match item with
  | none => hist
  | some it =>
    if it.word = "" then hist
    else
      let newItem := { it with timestamp := now }
      (newItem :: hist.filter (fun h => !(identTuple h = identTuple newItem))).take
        HISTORY_MAX_ITEMS

/-! ## Favorites and quiz list (`App.js` 366–376, 402–413) -/

structure Favorite where
  word : String
  timestamp : Nat
deriving DecidableEq, Repr

/-- Adding `addFavorite` (`App.js` 366–376).  Returns the new list and the toast
(no toast at all when the word is blank). -/
def addFavorite (favs : List Favorite) (w : String) (now : Nat) :
    List Favorite × Option Toast :=
  if trimJS w = "" then (favs, none)
  else
    let t := trimJS w
    if favs.any (fun f => toLowerJS f.word = toLowerJS t) then
      (favs, some { message := t ++ " is already in favorites.", kind := "info" })
    else
      ({ word := t, timestamp := now } :: favs,
        some { message := "Favorited: " ++ t, kind := "success" })

structure QuizItem where
  word : String
  id : String
deriving DecidableEq, Repr

/-- Adding `addToQuiz` (`App.js` 402–413); the id is `Date.now().toString()`. -/
def addToQuiz (qs : List QuizItem) (w : String) (now : Nat) :
    List QuizItem × Option Toast :=
  if trimJS w = "" then (qs, none)
  else
    let t := trimJS w
    if qs.any (fun q => toLowerJS q.word = toLowerJS t) then
      (qs, some { message := t ++ " is already in the Quiz list.", kind := "info" })
    else
      ({ word := t, id := String.mk (natStr now) } :: qs,
        some { message := "Added to Quiz List: " ++ t, kind := "success" })

/-! ## Validation and the request orchestrator (`App.js` 68–73, 233–351) -/

def MAX_REQUESTED_LENGTH : Nat := 250

/-- Validation `validateInputs` (`App.js` 68–73). -/
def validateInputs (w : String) (l : LenVal) : Option String :=
  if trimJS w = "" then some "Please enter a word or phrase."
  else
    match parseIntLV l with
    | none => some "Please enter a valid length (1-250)."
    | some n =>
      if n < 1 ∨ (MAX_REQUESTED_LENGTH : Int) < n then
        some "Please enter a valid length (1-250)."
      else none

/-- Arguments of `handleDefine` (absent field = `undefined`). -/
structure DefineParams where
  word : Option String
  length : Option LenVal
  tone : Option String
  context : Option String
  lang : Option String
deriving DecidableEq, Repr

/-- The provider state that `handleDefine` reads and writes: form fields,
display state, and the four persisted collections. -/
structure AppState where
  word : String
  lengthField : String
  tone : String
  contextValue : String
  lang : String
  definitionResult : Option ResultData
  errorMsg : Option String
  isLoading : Bool
  cache : CacheState
  history : List HistoryItem
  favorites : List Favorite
  quizList : List QuizItem
deriving DecidableEq, Repr

/-- A successful Define-service response (`responseData` plus its `config`
object, flattened). -/
structure ApiResponse where
  word : String
  resultText : String
  actualLength : Option Nat
  status : Option String
  tone : Option String
  context : Option String
  effectiveLang : Option String
deriving DecidableEq, Repr

/-- Word extraction `(params.word || word || '').trim()` (`App.js` 235). -/
def hdWord (st : AppState) (p : DefineParams) : String :=
  trimJS (orElseStr p.word st.word)

/-- Length extraction `params.length || length` (`App.js` 236); the form state is a
string. -/
def hdLength (st : AppState) (p : DefineParams) : LenVal :=
  match p.length with
  | some v => if lenTruthy v then v else .str st.lengthField
  | none => .str st.lengthField

/-- The history item built from a displayed result (`App.js` 268–280 and
321–333 build the same shape). -/
def histOfResult (r : ResultData) : HistoryItem where
  word := r.word
  length := .num r.requestedLength
  tone := r.tone
  context := r.context
  lang := r.effectiveLang
  timestamp := 0
  resActualLength := r.actualLength
  resStatus := r.status
  resEffectiveLang := r.effectiveLang

/-- Orchestrator `handleDefine` (`App.js` 233–351).  Oracles: `loaded` =
`isInitialDataLoaded`, `readFails` = cache read throws, `writeOk` = cache
write succeeds, `fetchRes` = outcome of the network call (error message or
parsed response), `now` = `Date.now()`.  Returns the new state and the
toasts shown, in order. -/
def handleDefine (loaded readFails writeOk : Bool) (fetchRes : Except String ApiResponse)
    (now : Nat) (st : AppState) (p : DefineParams) : AppState × List Toast :=
  let wordToDefine := hdWord st p
  let requestedLength := hdLength st p
  let toneParam := p.tone.getD st.tone
  let contextParam := p.context.getD st.contextValue
  let langParam := p.lang.getD st.lang
  match validateInputs wordToDefine requestedLength with
  | some err => ({ st with errorMsg := some err }, [{ message := err, kind := "error" }])
  | none =>
    let st1 := { st with isLoading := true, errorMsg := none, definitionResult := none }
    let rp : RequestParams :=
      { word := some wordToDefine, length := some requestedLength,
        tone := if toneParam = "" then none else some toneParam,
        context := if contextParam = "" then none else some contextParam,
        lang := if langParam = "" then none else some langParam }
    let lk := getCachedDefinition loaded readFails st1.cache rp
    match lk.1 with
    | some cr =>
      ({ st1 with
          cache := lk.2, definitionResult := some cr, isLoading := false,
          history := addToHistory st1.history (some (histOfResult cr)) now },
        [{ message := "Definition loaded from local cache.", kind := "info" }])
    | none =>
      match fetchRes with
      | .error msg =>
        ({ st1 with
            cache := lk.2, errorMsg := some msg, definitionResult := none,
            isLoading := false },
          [{ message := msg, kind := "error" }])
      | .ok api =>
        let fr : ResultData :=
          { word := api.word, resultText := api.resultText,
            actualLength := api.actualLength, status := api.status, tone := api.tone,
            context := api.context, effectiveLang := api.effectiveLang,
            requestedLength := (parseIntLV requestedLength).getD 0, cacheHit := false,
            savedAt := none }
        let sv := saveToCache writeOk now now lk.2 rp fr
        ({ st1 with
            cache := sv.1,
            history := addToHistory st1.history (some (histOfResult fr)) now,
            definitionResult := some fr, isLoading := false },
          sv.2.toList)

/-! ## Derived predicates and call-sequence runners used by the claims -/

/-- At most one history entry per normalized identity tuple. -/
def HistDeduped (hist : List HistoryItem) : Prop :=
  hist.Pairwise (fun a b => identTuple a ≠ identTuple b)

/-- A sequence of `addToHistory` calls (item and `Date.now()` value each). -/
def runHistory (h0 : List HistoryItem) (calls : List (Option HistoryItem × Nat)) :
    List HistoryItem :=
  calls.foldl (fun h c => addToHistory h c.1 c.2) h0

/-- No two favorites share a case-insensitive word. -/
def FavNoDupCI (l : List Favorite) : Prop :=
  l.Pairwise (fun a b => toLowerJS a.word ≠ toLowerJS b.word)

/-- No two quiz items share a case-insensitive word. -/
def QuizNoDupCI (l : List QuizItem) : Prop :=
  l.Pairwise (fun a b => toLowerJS a.word ≠ toLowerJS b.word)

/-- A sequence of `addFavorite` calls (word and `Date.now()` value each). -/
def runFavorites (f0 : List Favorite) (calls : List (String × Nat)) : List Favorite :=
  calls.foldl (fun f c => (addFavorite f c.1 c.2).1) f0

/-- A sequence of `addToQuiz` calls (word and `Date.now()` value each). -/
def runQuiz (q0 : List QuizItem) (calls : List (String × Nat)) : List QuizItem :=
  calls.foldl (fun q c => (addToQuiz q c.1 c.2).1) q0

/-! ## Roundtrip lemmas -/

theorem stripPre_exact (p r : List Char) : stripPre p (p ++ r) = some r := by
  induction p with
  | nil => rfl
  | cons c cs ih => simp [stripPre, ih]

theorem scanEsc_quote (cs : List Char) : scanEsc ('"' :: cs) = some ([], cs) := by
  rw [scanEsc.eq_def]; simp

theorem scanEsc_bs (d : Char) (cs : List Char) :
    scanEsc ('\\' :: d :: cs) = (scanEsc cs).map (fun pr => ('\\' :: d :: pr.1, pr.2)) := by
  rw [scanEsc.eq_def]
  simp [show ('\\' : Char) ≠ '"' from by decide]

theorem scanEsc_lit (c : Char) (h1 : c ≠ '"') (h2 : c ≠ '\\') (cs : List Char) :
    scanEsc (c :: cs) = (scanEsc cs).map (fun pr => (c :: pr.1, pr.2)) := by
  rw [scanEsc.eq_def]
  simp [h1, h2]

theorem hexChar_ne_quote : ∀ d, d < 16 → hexChar d ≠ '"' ∧ hexChar d ≠ '\\' := by decide

theorem scanEsc_escL (s : List Char) (r : List Char) :
    scanEsc (escL s ++ '"' :: r) = some (escL s, r) := by
  induction s with
  | nil => simp [escL, scanEsc_quote]
  | cons c cs ih =>
    show scanEsc ((escChar c ++ escL cs) ++ '"' :: r) = some (escChar c ++ escL cs, r)
    unfold escChar
    split_ifs with h1 h2 h3 h4 h5 h6 h7 h8
    · simp [scanEsc_bs, ih]
    · simp [scanEsc_bs, ih]
    · simp [scanEsc_bs, ih]
    · simp [scanEsc_bs, ih]
    · simp [scanEsc_bs, ih]
    · simp [scanEsc_bs, ih]
    · simp [scanEsc_bs, ih]
    · have hq1 := hexChar_ne_quote (c.toNat / 16) (by omega)
      have hq2 := hexChar_ne_quote (c.toNat % 16) (by omega)
      simp [scanEsc_bs, ih,
        scanEsc_lit _ (by decide : ('0' : Char) ≠ '"') (by decide : ('0' : Char) ≠ '\\'),
        scanEsc_lit _ hq1.1 hq1.2, scanEsc_lit _ hq2.1 hq2.2]
    · simp [scanEsc_lit c h1 h2, ih]

theorem hexVal_hexChar : ∀ d, d < 16 → hexVal (hexChar d) = some d := by decide

theorem unesc_lit (c : Char) (h : c ≠ '\\') (cs : List Char) :
    unesc (c :: cs) = (unesc cs).map (fun l => c.toNat :: l) := by
  rw [unesc.eq_def]
  simp [h]

theorem unesc_esc1 (d : Char) (hd : d ≠ 'u') (cs : List Char) :
    unesc ('\\' :: d :: cs) =
      match escCode d with
      | some n => (unesc cs).map (fun l => n :: l)
      | none => none := by
  rw [unesc.eq_def]
  simp [show ('\\' : Char) = '\\' from rfl, hd]

theorem unesc_escU (h1 h2 h3 h4 : Char) (cs : List Char) :
    unesc ('\\' :: 'u' :: h1 :: h2 :: h3 :: h4 :: cs) =
      match hexVal h1, hexVal h2, hexVal h3, hexVal h4 with
      | some v1, some v2, some v3, some v4 =>
        (unesc cs).map (fun l => (((v1 * 16 + v2) * 16 + v3) * 16 + v4) :: l)
      | _, _, _, _ => none := by
  rw [unesc.eq_def]
  simp

theorem unesc_escL (s : List Char) : unesc (escL s) = some (s.map Char.toNat) := by
  induction s with
  | nil => rfl
  | cons c cs ih =>
    show unesc (escChar c ++ escL cs) = some (c.toNat :: cs.map Char.toNat)
    unfold escChar
    split_ifs with h1 h2 h3 h4 h5 h6 h7 h8
    · subst h1; simp [unesc_esc1, escCode, ih]
    · subst h2; simp [unesc_esc1, escCode, ih]
    · subst h3
      simp [unesc_esc1 _ (by decide : ('b' : Char) ≠ 'u'), escCode, ih]
    · subst h4
      simp [unesc_esc1 _ (by decide : ('t' : Char) ≠ 'u'), escCode, ih]
    · subst h5
      simp [unesc_esc1 _ (by decide : ('n' : Char) ≠ 'u'), escCode, ih]
    · subst h6
      simp [unesc_esc1 _ (by decide : ('f' : Char) ≠ 'u'), escCode, ih]
    · subst h7
      simp [unesc_esc1 _ (by decide : ('r' : Char) ≠ 'u'), escCode, ih]
    · have e1 := hexVal_hexChar (c.toNat / 16) (by omega)
      have e2 := hexVal_hexChar (c.toNat % 16) (by omega)
      have e0 : hexVal '0' = some 0 := by decide
      simp only [List.cons_append, List.nil_append, unesc_escU, e0, e1, e2, ih,
        Option.map_some]
      have : ((((0 : Nat) * 16 + 0) * 16 + c.toNat / 16) * 16 + c.toNat % 16) = c.toNat := by
        omega
      rw [this]
      simp
    · simp [unesc_lit c h2, ih]

theorem digitsVal_append_one (xs : List Char) (d : Char) :
    digitsVal (xs ++ [d]) = digitsVal xs * 10 + (d.toNat - 48) := by
  simp [digitsVal, List.foldl_append]

theorem hexChar_digit_toNat : ∀ d, d < 10 → (hexChar d).toNat = 48 + d := by decide

theorem hexChar_digit_isDigit : ∀ d, d < 10 → (hexChar d).isDigit = true := by decide

theorem natStrAux_spec : ∀ fuel n, n < fuel →
    digitsVal (natStrAux fuel n) = n ∧ natStrAux fuel n ≠ [] ∧
      isDigitsL (natStrAux fuel n) = true := by
  intro fuel
  induction fuel with
  | zero => omega
  | succ f ih =>
    intro n hn
    rw [natStrAux]
    split_ifs with h
    · refine ⟨?_, by simp, ?_⟩
      · simp [digitsVal, hexChar_digit_toNat n h]
      · simp [isDigitsL, hexChar_digit_isDigit n h]
    · have hrec := ih (n / 10) (by omega)
      refine ⟨?_, by simp, ?_⟩
      · rw [digitsVal_append_one, hrec.1, hexChar_digit_toNat (n % 10) (by omega)]
        omega
      · simp only [isDigitsL, List.all_append] at hrec ⊢
        simp [hrec.2.2, hexChar_digit_isDigit (n % 10) (by omega), isDigitsL]

theorem natStr_spec (n : Nat) :
    digitsVal (natStr n) = n ∧ natStr n ≠ [] ∧ isDigitsL (natStr n) = true :=
  natStrAux_spec (n + 1) n (Nat.lt_succ_self n)

theorem digits_ne_null {cs : List Char} (h : isDigitsL cs = true) :
    cs ≠ ['n', 'u', 'l', 'l'] := by
  intro he
  subst he
  simp [isDigitsL] at h

theorem natStr_no_comma (n : Nat) : ∀ c ∈ natStr n, c ≠ ',' := by
  intro x hx he
  have hall := (natStr_spec n).2.2
  simp only [isDigitsL, List.all_eq_true] at hall
  have := hall x hx
  subst he
  exact absurd this (by decide)

theorem jsonNum_no_comma (v : Option Int) : ∀ c ∈ jsonNum v, c ≠ ',' := by
  match v with
  | none => decide
  | some i =>
    intro c hc
    by_cases hneg : i < 0
    · rw [jsonNum, intStr, if_pos hneg, List.mem_cons] at hc
      rcases hc with h | h
      · subst h; decide
      · exact natStr_no_comma i.natAbs c h
    · rw [jsonNum, intStr, if_neg hneg] at hc
      exact natStr_no_comma i.natAbs c hc

theorem takeUntilComma_exact (xs r : List Char) (h : ∀ c ∈ xs, c ≠ ',') :
    takeUntilComma (xs ++ ',' :: r) = (xs, ',' :: r) := by
  induction xs with
  | nil => simp [takeUntilComma]
  | cons c cs ih =>
    have hc : c ≠ ',' := h c (by simp)
    simp only [List.cons_append, takeUntilComma, hc, if_neg, ite_false, List.append_eq]
    rw [ih (fun x hx => h x (by simp [hx]))]

theorem decodeNum_jsonNum (v : Option Int) : decodeNum (jsonNum v) = some v := by
  match v with
  | none => decide
  | some i =>
    have hs := natStr_spec i.natAbs
    by_cases hneg : i < 0
    · rw [jsonNum, intStr, if_pos hneg, decodeNum]
      have hne : ('-' :: natStr i.natAbs) ≠ ['n', 'u', 'l', 'l'] := by
        intro he
        injection he with h1 _
        exact absurd h1 (by decide)
      rw [if_neg hne, if_neg (by simp : ¬('-' :: natStr i.natAbs) = [])]
      simp only [List.head?_cons, List.tail_cons, if_pos rfl]
      have hcond : (decide (natStr i.natAbs ≠ []) && isDigitsL (natStr i.natAbs)) = true := by
        simp [hs.2.1, hs.2.2]
      rw [if_pos hcond, hs.1]
      have hi : -((i.natAbs : Nat) : Int) = i := by omega
      rw [hi]
      simp
    · rw [jsonNum, intStr, if_neg hneg, decodeNum]
      have hne := digits_ne_null hs.2.2
      rw [if_neg hne, if_neg hs.2.1]
      have hhead : (natStr i.natAbs).head? ≠ some '-' := by
        match hcs : natStr i.natAbs with
        | [] => exact absurd hcs hs.2.1
        | c :: ds =>
          have hall : isDigitsL (c :: ds) = true := by rw [← hcs]; exact hs.2.2
          have hcd : c.isDigit = true := by
            simp [isDigitsL] at hall
            exact hall.1
          simp only [List.head?_cons, ne_eq, Option.some.injEq]
          intro he; subst he; exact absurd hcd (by decide)
      rw [if_neg hhead, if_pos hs.2.2, hs.1]
      have hi : ((i.natAbs : Nat) : Int) = i := by omega
      rw [hi]

theorem takeUntilComma_jsonNum (v : Option Int) (r : List Char) :
    takeUntilComma (jsonNum v ++ ',' :: r) = (jsonNum v, ',' :: r) :=
  takeUntilComma_exact _ _ (jsonNum_no_comma v)

theorem stripPre_exact_cons (c : Char) (p r : List Char) :
    stripPre (c :: p) (c :: (p ++ r)) = some r := by
  simp [stripPre, stripPre_exact]

set_option maxHeartbeats 1000000 in
theorem key_shape (k : KeyParams) :
    cacheKeyNS ++ stringifyKeyParams k =
      nsCtxQ ++ (escL k.context.data ++ '"' :: (langQ ++ (escL k.lang.data ++ '"' ::
        (lenPre ++ (jsonNum k.length ++ (',' :: (toneQ ++ (escL k.tone.data ++ '"' ::
          (wordQ ++ (escL k.word.data ++ '"' :: ['\x7d'])))))))))) := by
  have e1 : nsCtxQ = cacheKeyNS ++ (litCtx ++ ['"']) := rfl
  have e2 : langQ = litLang ++ ['"'] := rfl
  have e3 : lenPre = litLen := rfl
  have e4 : toneQ = "\"tone\":".data ++ ['"'] := rfl
  have e5 : litTone = ',' :: "\"tone\":".data := rfl
  have e6 : wordQ = litWord ++ ['"'] := rfl
  simp only [stringifyKeyParams, jsonStrL, e1, e2, e3, e4, e5, e6,
    List.append_assoc, List.cons_append, List.singleton_append, List.nil_append,
    List.append_nil]

theorem parseKeyL_roundtrip (k : KeyParams) :
    parseKeyL (cacheKeyNS ++ stringifyKeyParams k) =
      some (k.context.data.map Char.toNat, k.lang.data.map Char.toNat, k.length,
        k.tone.data.map Char.toNat, k.word.data.map Char.toNat) := by
  rw [key_shape]
  simp only [parseKeyL, parseKeyRaw, parseKeyRawB, Option.some_bind, stripPre_exact,
    stripPre_exact_cons, scanEsc_escL, takeUntilComma_jsonNum, unesc_escL,
    decodeNum_jsonNum]
  simp [unesc_escL, decodeNum_jsonNum]

theorem char_toNat_injective : Function.Injective Char.toNat := by
  intro c d h
  apply Char.eq_of_val_eq
  apply UInt32.eq_of_toBitVec_eq
  apply BitVec.eq_of_toNat_eq
  exact h

theorem string_of_codes_eq {s t : String}
    (h : s.data.map Char.toNat = t.data.map Char.toNat) : s = t := by
  have hd : s.data = t.data := List.map_injective_iff.mpr char_toNat_injective h
  cases s with
  | mk d1 =>
    cases t with
    | mk d2 =>
      have hdd : d1 = d2 := hd
      rw [hdd]

theorem generateCacheKey_inj {p1 p2 : RequestParams}
    (h : generateCacheKey p1 = generateCacheKey p2) :
    normalizeParams p1 = normalizeParams p2 := by
  have hl : parseKeyL (cacheKeyNS ++ stringifyKeyParams (normalizeParams p1)) =
      parseKeyL (cacheKeyNS ++ stringifyKeyParams (normalizeParams p2)) := by
    have := congrArg (fun s => parseKeyL s.data) h
    simpa [generateCacheKey] using this
  rw [parseKeyL_roundtrip, parseKeyL_roundtrip] at hl
  simp only [Option.some.injEq, Prod.mk.injEq] at hl
  obtain ⟨hc, hg, hn, ht, hw⟩ := hl
  have h1 := string_of_codes_eq hc
  have h2 := string_of_codes_eq hg
  have h3 := string_of_codes_eq ht
  have h4 := string_of_codes_eq hw
  cases hp1 : normalizeParams p1 with
  | mk w1 n1 t1 c1 g1 =>
    cases hp2 : normalizeParams p2 with
    | mk w2 n2 t2 c2 g2 =>
      rw [hp1, hp2] at h1 h2 h3 h4 hn
      simp_all

/-! ## Small lemmas about the cache model -/

theorem idxLookup_cons (e : String × Nat) (rest : List (String × Nat)) (k : String) :
    idxLookup (e :: rest) k = if e.1 = k then some e.2 else idxLookup rest k := by
  by_cases h : e.1 = k
  · simp [idxLookup, List.find?_cons_of_pos, h]
  · simp [idxLookup, List.find?_cons_of_neg, h]

theorem idxLookup_idxRemove_self (idx : List (String × Nat)) (k : String) :
    idxLookup (idxRemove idx k) k = none := by
  induction idx with
  | nil => rfl
  | cons e es ih =>
    have hstep : idxRemove (e :: es) k =
        if e.1 = k then idxRemove es k else e :: idxRemove es k := by
      by_cases he : e.1 = k <;> simp [idxRemove, List.filter_cons, he]
    rw [hstep]
    by_cases he : e.1 = k
    · rw [if_pos he]
      exact ih
    · rw [if_neg he, idxLookup_cons, if_neg he]
      exact ih

theorem idxLookup_idxInsert_self (idx : List (String × Nat)) (k : String) (v : Nat) :
    idxLookup (idxInsert idx k v) k = some v := by
  simp [idxInsert, idxLookup, List.find?]

theorem storeLookup_storeInsert_self (st : List (String × ResultData)) (k : String)
    (d : ResultData) : storeLookup (storeInsert st k d) k = some d := by
  simp [storeInsert, storeLookup, List.find?]

theorem storeLookup_cons (e : String × ResultData) (rest : List (String × ResultData))
    (k : String) :
    storeLookup (e :: rest) k = if e.1 = k then some e.2 else storeLookup rest k := by
  by_cases h : e.1 = k
  · simp [storeLookup, List.find?_cons_of_pos, h]
  · simp [storeLookup, List.find?_cons_of_neg, h]

theorem storeLookup_storeRemoveMany (st : List (String × ResultData)) (ks : List String)
    (k : String) (hk : k ∈ ks) :
    storeLookup (storeRemoveMany st ks) k = none := by
  induction st with
  | nil => rfl
  | cons e es ih =>
    have hstep : storeRemoveMany (e :: es) ks =
        if e.1 ∈ ks then storeRemoveMany es ks
        else e :: storeRemoveMany es ks := by
      by_cases he : e.1 ∈ ks <;> simp [storeRemoveMany, List.filter_cons, he]
    rw [hstep]
    by_cases he : e.1 ∈ ks
    · rw [if_pos he]
      exact ih
    · have hne : e.1 ≠ k := by
        intro h
        rw [h] at he
        exact he hk
      rw [if_neg he, storeLookup_cons, if_neg hne]
      exact ih

/-! ## Claim theorems -/

/-- C1: `generateCacheKey` is a total function of its parameters (defined for
every `RequestParams`, optional fields absent included, and — being a pure
Lean function of its argument — stable across repeated calls), and two
parameter records receive the same cache key exactly when their normalized
`keyParams` forms (word trimmed and lower-cased, tone/context/lang
lower-cased with defaults `"neutral"`/`"none"`/`"auto"`, length coerced by
`parseInt`) are equal. -/
theorem generateCacheKey_eq_iff_normalized (p1 p2 : RequestParams) :
    generateCacheKey p1 = generateCacheKey p2 ↔
      normalizeParams p1 = normalizeParams p2 :=
  ⟨generateCacheKey_inj, fun h => by rw [generateCacheKey, generateCacheKey, h]⟩

/-- C2: when the key of `p` is present in the in-memory index (with its
nonzero `Date.now()` timestamp) but the store read returns nothing or
throws, `getCachedDefinition` returns `none` and removes the stray key from
the index; no error is surfaced (the embedded operation has no error or
toast output at all on this path, matching the source, which only logs). -/
theorem getCachedDefinition_self_heals (readFails : Bool) (cs : CacheState)
    (p : RequestParams) (v : Nat)
    (hv : idxLookup cs.index (generateCacheKey p) = some v) (hv0 : v ≠ 0)
    (hmiss : readFails = true ∨ storeLookup cs.store (generateCacheKey p) = none) :
    (getCachedDefinition true readFails cs p).1 = none ∧
      idxLookup (getCachedDefinition true readFails cs p).2.index
        (generateCacheKey p) = none := by
  have htr : idxTruthy cs.index (generateCacheKey p) = true := by
    simp [idxTruthy, hv, hv0]
  cases readFails with
  | false =>
    have hst : storeLookup cs.store (generateCacheKey p) = none :=
      hmiss.resolve_left (by simp)
    simp [getCachedDefinition, htr, hst, idxLookup_idxRemove_self]
  | true =>
    simp [getCachedDefinition, htr, idxLookup_idxRemove_self]

/-- Witness for C2 at a concrete state: an index entry whose stored entry is
missing. -/
theorem getCachedDefinition_self_heals_witness :
    (getCachedDefinition true false
        { index := [(generateCacheKey
            { word := some "a", length := none, tone := none, context := none,
              lang := none }, 5)], store := [] }
        { word := some "a", length := none, tone := none, context := none,
          lang := none }).1 = none ∧
      idxLookup (getCachedDefinition true false
        { index := [(generateCacheKey
            { word := some "a", length := none, tone := none, context := none,
              lang := none }, 5)], store := [] }
        { word := some "a", length := none, tone := none, context := none,
          lang := none }).2.index
        (generateCacheKey
          { word := some "a", length := none, tone := none, context := none,
            lang := none }) = none :=
  getCachedDefinition_self_heals false _ _ 5 (by decide) (by decide)
    (Or.inr (by decide))

/-- C3: when the store write fails, `saveToCache` leaves the cache state
(and in particular the index) unchanged, reports the non-fatal
"Could not save definition locally." error toast, and a subsequent lookup
for a key that was not already indexed returns absent. -/
theorem saveToCache_fail_keeps_absent (nowD nowI : Nat) (cs : CacheState)
    (p : RequestParams) (r : ResultData)
    (habs : idxLookup cs.index (generateCacheKey p) = none) :
    (saveToCache false nowD nowI cs p r).1 = cs ∧
    (saveToCache false nowD nowI cs p r).2 =
      some { message := "Could not save definition locally.", kind := "error" } ∧
    (getCachedDefinition true false (saveToCache false nowD nowI cs p r).1 p).1 =
      none ∧
    (getCachedDefinition true false (saveToCache false nowD nowI cs p r).1 p).2 =
      cs := by
  refine ⟨rfl, rfl, ?_, ?_⟩ <;>
    simp [saveToCache, getCachedDefinition, idxTruthy, habs]

/-- Witness for C3 at a concrete empty cache state. -/
theorem saveToCache_fail_keeps_absent_witness :
    (saveToCache false 7 8 { index := [], store := [] }
        { word := some "a", length := none, tone := none, context := none,
          lang := none }
        { word := "a", resultText := "t", actualLength := none, status := none,
          tone := none, context := none, effectiveLang := none,
          requestedLength := 30, cacheHit := false, savedAt := none }).1 =
      { index := [], store := [] } ∧
    (saveToCache false 7 8 { index := [], store := [] }
        { word := some "a", length := none, tone := none, context := none,
          lang := none }
        { word := "a", resultText := "t", actualLength := none, status := none,
          tone := none, context := none, effectiveLang := none,
          requestedLength := 30, cacheHit := false, savedAt := none }).2 =
      some { message := "Could not save definition locally.", kind := "error" } ∧
    (getCachedDefinition true false (saveToCache false 7 8
        { index := [], store := [] }
        { word := some "a", length := none, tone := none, context := none,
          lang := none }
        { word := "a", resultText := "t", actualLength := none, status := none,
          tone := none, context := none, effectiveLang := none,
          requestedLength := 30, cacheHit := false, savedAt := none }).1
        { word := some "a", length := none, tone := none, context := none,
          lang := none }).1 = none ∧
    (getCachedDefinition true false (saveToCache false 7 8
        { index := [], store := [] }
        { word := some "a", length := none, tone := none, context := none,
          lang := none }
        { word := "a", resultText := "t", actualLength := none, status := none,
          tone := none, context := none, effectiveLang := none,
          requestedLength := 30, cacheHit := false, savedAt := none }).1
        { word := some "a", length := none, tone := none, context := none,
          lang := none }).2 = { index := [], store := [] } :=
  saveToCache_fail_keeps_absent 7 8 _ _ _ (by decide)

/-- C4: after a successful `saveToCache` of payload `r`, a lookup of the
same parameters returns `r` enriched with the cache metadata `savedAt` and
with `cacheHit := true` — regardless of the `cacheHit` value recorded in the
stored payload (the flag reflects the lookup, not the store). -/
theorem store_then_lookup_hits (nowD nowI : Nat) (cs : CacheState)
    (p : RequestParams) (r : ResultData) (hnz : nowI ≠ 0) :
    (getCachedDefinition true false (saveToCache true nowD nowI cs p r).1 p).1 =
      some { r with savedAt := some nowD, cacheHit := true } := by
  simp [saveToCache, getCachedDefinition, idxTruthy, idxLookup_idxInsert_self,
    storeLookup_storeInsert_self, hnz]

/-- Witness for C4 at a concrete state, with a payload stored as
`cacheHit := false` and returned as `cacheHit := true`. -/
theorem store_then_lookup_hits_witness :
    (getCachedDefinition true false (saveToCache true 7 8
        { index := [], store := [] }
        { word := some "a", length := none, tone := none, context := none,
          lang := none }
        { word := "a", resultText := "t", actualLength := none, status := none,
          tone := none, context := none, effectiveLang := none,
          requestedLength := 30, cacheHit := false, savedAt := none }).1
        { word := some "a", length := none, tone := none, context := none,
          lang := none }).1 =
      some { word := "a", resultText := "t", actualLength := none,
             status := none, tone := none, context := none,
             effectiveLang := none, requestedLength := 30, cacheHit := true,
             savedAt := some 7 } :=
  store_then_lookup_hits 7 8 _ _ _ (by decide)

/-- C5 counterexample: with one key in the index, a failed bulk removal
reports 0 rather than the 1 key that was targeted, so "returns the number of
keys that were targeted ... even when the bulk removal fails" is false as
stated. -/
theorem clearCache_count_counterexample :
    ({ index := [("k", 1)], store := [] } : CacheState).index.length = 1 ∧
    (clearCache false { index := [("k", 1)], store := [] }).1 = 0 := by
  decide

/-- C5 amended: `clearCache` always resets the index to empty, removes every
indexed key from the store when the bulk removal succeeds, and the count it
reports equals the number of targeted keys on success but `0` when the bulk
removal fails. -/
theorem clearCache_resets (cs : CacheState) :
    (clearCache true cs).2.1.index = [] ∧
    (clearCache false cs).2.1.index = [] ∧
    (clearCache true cs).1 = cs.index.length ∧
    (clearCache false cs).1 = 0 ∧
    ((cs.index.map (fun e => e.1)).all
        (fun k => decide (storeLookup (clearCache true cs).2.1.store k = none)))
      = true := by
  refine ⟨?_, ?_, ?_, ?_, ?_⟩
  · simp [clearCache]
  · by_cases h : 0 < cs.index.length <;> simp [clearCache, h]
  · simp [clearCache]
  · by_cases h : 0 < cs.index.length
    · simp [clearCache, h]
    · have h0 : cs.index.length = 0 := by omega
      simp [clearCache, h, h0]
  · rw [List.all_eq_true]
    intro k hk
    simp only [decide_eq_true_eq]
    have : (clearCache true cs).2.1.store = storeRemoveMany cs.store
        (cs.index.map (fun e => e.1)) := by
      simp [clearCache]
    rw [this]
    exact storeLookup_storeRemoveMany _ _ _ hk

/-- C10: `addToHistory` with a missing item, or an item whose `word` is
empty (JavaScript-falsy), is a no-op: the history list is returned
unchanged. -/
theorem addToHistory_noop (hist : List HistoryItem) (now : Nat)
    (it : HistoryItem) (hw : it.word = "") :
    addToHistory hist none now = hist ∧ addToHistory hist (some it) now = hist :=
  ⟨rfl, by simp [addToHistory, hw]⟩

/-- Witness for C10 at a concrete history and item. -/
theorem addToHistory_noop_witness :
    addToHistory [⟨"a", .num 1, none, none, none, 0, none, none, none⟩] none 4 =
      [⟨"a", .num 1, none, none, none, 0, none, none, none⟩] ∧
    addToHistory [⟨"a", .num 1, none, none, none, 0, none, none, none⟩]
        (some ⟨"", .num 2, none, none, none, 0, none, none, none⟩) 4 =
      [⟨"a", .num 1, none, none, none, 0, none, none, none⟩] :=
  addToHistory_noop _ 4 _ (by decide)

/-- One `addToHistory` call keeps the history within the cap and free of
duplicate identity tuples. -/
theorem addToHistory_preserves (hist : List HistoryItem) (item : Option HistoryItem)
    (now : Nat) (hl : hist.length ≤ HISTORY_MAX_ITEMS) (hd : HistDeduped hist) :
    (addToHistory hist item now).length ≤ HISTORY_MAX_ITEMS ∧
      HistDeduped (addToHistory hist item now) := by
  match item with
  | none => exact ⟨hl, hd⟩
  | some it =>
    by_cases hw : it.word = ""
    · rw [addToHistory, if_pos hw]
      exact ⟨hl, hd⟩
    · rw [addToHistory, if_neg hw]
      constructor
      · exact List.length_take_le _ _
      · apply List.Pairwise.take
        apply List.pairwise_cons.mpr
        constructor
        · intro b hb
          have hkeep := List.of_mem_filter hb
          simp only [Bool.not_eq_true', decide_eq_false_iff_not] at hkeep
          exact fun he => hkeep (he.symm)
        · exact hd.filter _

/-- Any sequence of `addToHistory` calls keeps the invariants. -/
theorem runHistory_inv (calls : List (Option HistoryItem × Nat)) :
    ∀ h0 : List HistoryItem, h0.length ≤ HISTORY_MAX_ITEMS → HistDeduped h0 →
      (runHistory h0 calls).length ≤ HISTORY_MAX_ITEMS ∧
        HistDeduped (runHistory h0 calls) := by
  induction calls with
  | nil => exact fun h0 hl hd => ⟨hl, hd⟩
  | cons c cs ih =>
    intro h0 hl hd
    have hstep := addToHistory_preserves h0 c.1 c.2 hl hd
    exact ih _ hstep.1 hstep.2

/-- Recording a (non-blank) item leaves it at the head with the fresh
timestamp and as the only entry for its identity tuple. -/
theorem addToHistory_exactly_one (hist : List HistoryItem) (it : HistoryItem)
    (now : Nat) (hw : it.word ≠ "") :
    (addToHistory hist (some it) now).head? = some { it with timestamp := now } ∧
      (addToHistory hist (some it) now).filter
          (fun h => identTuple h = identTuple it) =
        [{ it with timestamp := now }] := by
  rw [addToHistory, if_neg hw]
  constructor
  · rw [show HISTORY_MAX_ITEMS = 49 + 1 from rfl, List.take_succ_cons]
    rfl
  · have hcond :
        (decide (identTuple { it with timestamp := now } = identTuple it)) = true :=
      decide_eq_true rfl
    rw [show HISTORY_MAX_ITEMS = 49 + 1 from rfl, List.take_succ_cons,
      List.filter_cons, if_pos hcond]
    have hnil : (List.take 49 (hist.filter
        (fun h => !(identTuple h = identTuple { it with timestamp := now })))).filter
        (fun h => identTuple h = identTuple it) = [] := by
      rw [List.filter_eq_nil_iff]
      intro a ha
      have hmem := List.mem_of_mem_take ha
      have hkeep := List.of_mem_filter hmem
      have hid : identTuple { it with timestamp := now } = identTuple it := rfl
      simp only [hid, Bool.not_eq_true', decide_eq_false_iff_not] at hkeep
      simp only [decide_eq_true_eq]
      exact hkeep
    rw [hnil]

/-- C6 counterexample: from a start of at most `HISTORY_MAX_ITEMS` entries
that already contains a duplicated identity tuple, one `record` call for a
different tuple leaves the duplicate in place, so "contains at most one
entry per normalized identity tuple" does not hold for every start that the
claim admits (it only constrains the starting size). -/
theorem addToHistory_dup_counterexample :
    ([⟨"a", .num 1, none, none, none, 0, none, none, none⟩,
      ⟨"a", .num 1, none, none, none, 0, none, none, none⟩] :
        List HistoryItem).length ≤ HISTORY_MAX_ITEMS ∧
    ((addToHistory
        [⟨"a", .num 1, none, none, none, 0, none, none, none⟩,
         ⟨"a", .num 1, none, none, none, 0, none, none, none⟩]
        (some ⟨"b", .num 1, none, none, none, 0, none, none, none⟩) 5).filter
      (fun h => identTuple h =
        identTuple ⟨"a", .num 1, none, none, none, 0, none, none, none⟩)).length
      = 2 := by
  decide

/-- C6 amended: starting from a history of at most `HISTORY_MAX_ITEMS`
entries *with at most one entry per identity tuple*, any sequence of
`record` calls keeps the history within `HISTORY_MAX_ITEMS` entries and free
of duplicate identity tuples, and recording a (non-blank) item whose
identity tuple matches an existing entry leaves exactly one entry for that
tuple, prepended with the fresh timestamp. -/
theorem addToHistory_invariants (h0 : List HistoryItem)
    (calls : List (Option HistoryItem × Nat))
    (hlen : h0.length ≤ HISTORY_MAX_ITEMS) (hded : HistDeduped h0) :
    (runHistory h0 calls).length ≤ HISTORY_MAX_ITEMS ∧
    HistDeduped (runHistory h0 calls) ∧
    ∀ it now, it.word ≠ "" →
      (∃ h ∈ runHistory h0 calls, identTuple h = identTuple it) →
      (addToHistory (runHistory h0 calls) (some it) now).head? =
          some { it with timestamp := now } ∧
        (addToHistory (runHistory h0 calls) (some it) now).filter
            (fun h => identTuple h = identTuple it) =
          [{ it with timestamp := now }] := by
  have hrun := runHistory_inv calls h0 hlen hded
  exact ⟨hrun.1, hrun.2, fun it now hw _ => addToHistory_exactly_one _ it now hw⟩

/-- Witness for C6 at a concrete start and call sequence. -/
theorem addToHistory_invariants_witness :
    (runHistory [] [(some ⟨"a", .num 1, none, none, none, 0, none, none, none⟩,
        3)]).length ≤ HISTORY_MAX_ITEMS ∧
    HistDeduped (runHistory []
      [(some ⟨"a", .num 1, none, none, none, 0, none, none, none⟩, 3)]) ∧
    (addToHistory (runHistory []
        [(some ⟨"a", .num 1, none, none, none, 0, none, none, none⟩, 3)])
        (some ⟨"A", .num 1, none, none, none, 9, none, none, none⟩) 5).head? =
      some ⟨"A", .num 1, none, none, none, 5, none, none, none⟩ ∧
    (addToHistory (runHistory []
        [(some ⟨"a", .num 1, none, none, none, 0, none, none, none⟩, 3)])
        (some ⟨"A", .num 1, none, none, none, 9, none, none, none⟩) 5).filter
        (fun h => identTuple h =
          identTuple ⟨"A", .num 1, none, none, none, 9, none, none, none⟩) =
      [⟨"A", .num 1, none, none, none, 5, none, none, none⟩] := by
  have h := addToHistory_invariants []
    [(some ⟨"a", .num 1, none, none, none, 0, none, none, none⟩, 3)]
    (by decide) (by simp [HistDeduped])
  refine ⟨h.1, h.2.1, ?_, ?_⟩
  · exact (h.2.2 ⟨"A", .num 1, none, none, none, 9, none, none, none⟩ 5
      (by decide)
      ⟨⟨"a", .num 1, none, none, none, 3, none, none, none⟩, by decide, by decide⟩).1
  · exact (h.2.2 ⟨"A", .num 1, none, none, none, 9, none, none, none⟩ 5
      (by decide)
      ⟨⟨"a", .num 1, none, none, none, 3, none, none, none⟩, by decide, by decide⟩).2

/-- C7: when validation fails (blank word, or length that does not parse to
an integer in `[1, MAX_REQUESTED_LENGTH]`), `handleDefine` only records the
validation error and reports it as an error toast; the displayed result,
cache index and store, history, favorites and quiz list are all unchanged
and no cache read or write happens (the resulting state is the input state
with only `errorMsg` replaced). -/
theorem handleDefine_invalid_no_side_effects (loaded readFails writeOk : Bool)
    (fetchRes : Except String ApiResponse) (now : Nat) (st : AppState)
    (p : DefineParams) (e : String)
    (hval : validateInputs (hdWord st p) (hdLength st p) = some e) :
    handleDefine loaded readFails writeOk fetchRes now st p =
      ({ st with errorMsg := some e }, [{ message := e, kind := "error" }]) := by
  simp [handleDefine, hval]

/-- Witness for C7: a blank word is rejected with no side effects. -/
theorem handleDefine_invalid_no_side_effects_witness :
    handleDefine true false true (Except.error "net") 9
        { word := "", lengthField := "30", tone := "", contextValue := "",
          lang := "", definitionResult := none, errorMsg := none,
          isLoading := false, cache := { index := [], store := [] },
          history := [], favorites := [], quizList := [] }
        { word := none, length := none, tone := none, context := none,
          lang := none } =
      ({ word := "", lengthField := "30", tone := "", contextValue := "",
         lang := "", definitionResult := none,
         errorMsg := some "Please enter a word or phrase.",
         isLoading := false, cache := { index := [], store := [] },
         history := [], favorites := [], quizList := [] },
       [{ message := "Please enter a word or phrase.", kind := "error" }]) :=
  handleDefine_invalid_no_side_effects true false true (Except.error "net") 9 _ _
    "Please enter a word or phrase." (by decide)

/-- C8 counterexample: a present but unparseable length (`"x"`) does not get
the default `0`: it normalizes to `NaN` (serialized `null`), so the key
differs from the key of an absent length, which does default to `0`. -/
theorem generateCacheKey_invalid_length_counterexample :
    generateCacheKey
        { word := some "a", length := some (.str "x"),
          tone := none, context := none, lang := none } ≠
      generateCacheKey
        { word := some "a", length := none, tone := none,
          context := none, lang := none } := by
  decide

/-- C8 amended: `generateCacheKey` normalizes the length with JavaScript
`parseInt`; the default `0` is used when the length is absent (or falsy:
`""` or `0`), but a present, truthy, unparseable length becomes `NaN`,
serialized as `null` — a key distinct from every integer-length key. -/
theorem normLength_defaults (p : RequestParams) (s : String)
    (hne : s ≠ "") (hbad : parseIntJS s = none) :
    (normalizeParams { p with length := none }).length = some 0 ∧
    (normalizeParams { p with length := some (.str "") }).length = some 0 ∧
    (normalizeParams { p with length := some (.num 0) }).length = some 0 ∧
    (normalizeParams { p with length := some (.str s) }).length = none ∧
    generateCacheKey { p with length := some (.str s) } ≠
      generateCacheKey { p with length := none } := by
  refine ⟨rfl, by simp [normalizeParams, normLength, lenTruthy], rfl, ?_, ?_⟩
  · simp [normalizeParams, normLength, lenTruthy, hne, parseIntLV, hbad]
  · intro h
    have hlen := congrArg KeyParams.length (generateCacheKey_inj h)
    simp [normalizeParams, normLength, lenTruthy, hne, parseIntLV, hbad] at hlen

/-- Witness for C8 at the concrete unparseable length `"x"`. -/
theorem normLength_defaults_witness :
    (normalizeParams
      { word := some "a", length := none, tone := none,
        context := none, lang := none }).length = some 0 ∧
    (normalizeParams
      { word := some "a", length := some (.str ""), tone := none,
        context := none, lang := none }).length = some 0 ∧
    (normalizeParams
      { word := some "a", length := some (.num 0), tone := none,
        context := none, lang := none }).length = some 0 ∧
    (normalizeParams
      { word := some "a", length := some (.str "x"), tone := none,
        context := none, lang := none }).length = none ∧
    generateCacheKey
        { word := some "a", length := some (.str "x"), tone := none,
          context := none, lang := none } ≠
      generateCacheKey
        { word := some "a", length := none, tone := none,
          context := none, lang := none } := by
  have h := normLength_defaults
    { word := some "a", length := none, tone := none, context := none,
      lang := none } "x" (by decide) (by decide)
  exact h

/-- One `addFavorite` call preserves case-insensitive uniqueness. -/
theorem addFavorite_nodup (favs : List Favorite) (w : String) (now : Nat)
    (h : FavNoDupCI favs) : FavNoDupCI (addFavorite favs w now).1 := by
  by_cases h1 : trimJS w = ""
  · rw [addFavorite, if_pos h1]
    exact h
  · rw [addFavorite, if_neg h1]
    by_cases h2 : favs.any (fun f => toLowerJS f.word = toLowerJS (trimJS w))
    · rw [if_pos h2]
      exact h
    · rw [if_neg h2]
      apply List.pairwise_cons.mpr
      refine ⟨?_, h⟩
      intro b hb
      rw [List.any_eq_true] at h2
      push_neg at h2
      have := h2 b hb
      exact fun he => this (decide_eq_true he.symm)

/-- One `addToQuiz` call preserves case-insensitive uniqueness. -/
theorem addToQuiz_nodup (qs : List QuizItem) (w : String) (now : Nat)
    (h : QuizNoDupCI qs) : QuizNoDupCI (addToQuiz qs w now).1 := by
  by_cases h1 : trimJS w = ""
  · rw [addToQuiz, if_pos h1]
    exact h
  · rw [addToQuiz, if_neg h1]
    by_cases h2 : qs.any (fun q => toLowerJS q.word = toLowerJS (trimJS w))
    · rw [if_pos h2]
      exact h
    · rw [if_neg h2]
      apply List.pairwise_cons.mpr
      refine ⟨?_, h⟩
      intro b hb
      rw [List.any_eq_true] at h2
      push_neg at h2
      have := h2 b hb
      exact fun he => this (decide_eq_true he.symm)

/-- Any sequence of `addFavorite` calls preserves uniqueness. -/
theorem runFavorites_nodup (calls : List (String × Nat)) :
    ∀ f0 : List Favorite, FavNoDupCI f0 → FavNoDupCI (runFavorites f0 calls) := by
  induction calls with
  | nil => exact fun f0 h => h
  | cons c cs ih => exact fun f0 h => ih _ (addFavorite_nodup f0 c.1 c.2 h)

/-- Any sequence of `addToQuiz` calls preserves uniqueness. -/
theorem runQuiz_nodup (calls : List (String × Nat)) :
    ∀ q0 : List QuizItem, QuizNoDupCI q0 → QuizNoDupCI (runQuiz q0 calls) := by
  induction calls with
  | nil => exact fun q0 h => h
  | cons c cs ih => exact fun q0 h => ih _ (addToQuiz_nodup q0 c.1 c.2 h)

/-- Behavior of one `addFavorite` call on a non-blank word. -/
theorem addFavorite_behavior (favs : List Favorite) (w : String) (now : Nat)
    (hw : trimJS w ≠ "") :
    ((∃ f ∈ favs, toLowerJS f.word = toLowerJS (trimJS w)) →
      addFavorite favs w now =
        (favs, some { message := trimJS w ++ " is already in favorites.",
                      kind := "info" })) ∧
    ((¬ ∃ f ∈ favs, toLowerJS f.word = toLowerJS (trimJS w)) →
      addFavorite favs w now =
        ({ word := trimJS w, timestamp := now } :: favs,
          some { message := "Favorited: " ++ trimJS w, kind := "success" })) := by
  constructor
  · intro hex
    have h2 : favs.any (fun f => toLowerJS f.word = toLowerJS (trimJS w)) = true := by
      rw [List.any_eq_true]
      obtain ⟨f, hf, he⟩ := hex
      exact ⟨f, hf, decide_eq_true he⟩
    rw [addFavorite, if_neg hw, if_pos h2]
  · intro hnex
    have h2 : ¬ (favs.any (fun f => toLowerJS f.word = toLowerJS (trimJS w)) = true) := by
      rw [List.any_eq_true]
      intro hex
      apply hnex
      obtain ⟨f, hf, he⟩ := hex
      exact ⟨f, hf, of_decide_eq_true he⟩
    rw [addFavorite, if_neg hw, if_neg h2]

/-- Behavior of one `addToQuiz` call on a non-blank word. -/
theorem addToQuiz_behavior (qs : List QuizItem) (w : String) (now : Nat)
    (hw : trimJS w ≠ "") :
    ((∃ q ∈ qs, toLowerJS q.word = toLowerJS (trimJS w)) →
      addToQuiz qs w now =
        (qs, some { message := trimJS w ++ " is already in the Quiz list.",
                    kind := "info" })) ∧
    ((¬ ∃ q ∈ qs, toLowerJS q.word = toLowerJS (trimJS w)) →
      addToQuiz qs w now =
        ({ word := trimJS w, id := String.mk (natStr now) } :: qs,
          some { message := "Added to Quiz List: " ++ trimJS w,
                 kind := "success" })) := by
  constructor
  · intro hex
    have h2 : qs.any (fun q => toLowerJS q.word = toLowerJS (trimJS w)) = true := by
      rw [List.any_eq_true]
      obtain ⟨q, hq, he⟩ := hex
      exact ⟨q, hq, decide_eq_true he⟩
    rw [addToQuiz, if_neg hw, if_pos h2]
  · intro hnex
    have h2 : ¬ (qs.any (fun q => toLowerJS q.word = toLowerJS (trimJS w)) = true) := by
      rw [List.any_eq_true]
      intro hex
      apply hnex
      obtain ⟨q, hq, he⟩ := hex
      exact ⟨q, hq, of_decide_eq_true he⟩
    rw [addToQuiz, if_neg hw, if_neg h2]

/-- C9 counterexample: adding `""` to an empty favorites list: no
case-insensitive equivalent is present, yet nothing is prepended and no
notice is shown (the blank-word guard returns silently), so "otherwise the
new entry is prepended" is false as stated. -/
theorem addFavorite_blank_counterexample :
    (¬ ∃ f ∈ ([] : List Favorite), toLowerJS f.word = toLowerJS (trimJS "")) ∧
    (addFavorite [] "" 0).1 = [] ∧ (addFavorite [] "" 0).2 = none := by
  refine ⟨by simp, rfl, rfl⟩

/-- C9 amended: for every sequence of adds starting from duplicate-free
collections, the Favorites and Quiz lists never contain two entries with the
same case-insensitive word; for *non-blank* words, adding an already-present
word is a no-op with an "already present" info notice, and otherwise the new
entry is prepended with a success notice (blank words are silently
ignored). -/
theorem favorites_quiz_invariants (f0 : List Favorite) (q0 : List QuizItem)
    (calls : List (String × Nat)) (hf : FavNoDupCI f0) (hq : QuizNoDupCI q0) :
    FavNoDupCI (runFavorites f0 calls) ∧ QuizNoDupCI (runQuiz q0 calls) ∧
    ∀ w now, trimJS w ≠ "" →
      (((∃ f ∈ runFavorites f0 calls,
          toLowerJS f.word = toLowerJS (trimJS w)) →
        addFavorite (runFavorites f0 calls) w now =
          (runFavorites f0 calls,
            some { message := trimJS w ++ " is already in favorites.",
                   kind := "info" })) ∧
      ((¬ ∃ f ∈ runFavorites f0 calls,
          toLowerJS f.word = toLowerJS (trimJS w)) →
        addFavorite (runFavorites f0 calls) w now =
          ({ word := trimJS w, timestamp := now } :: runFavorites f0 calls,
            some { message := "Favorited: " ++ trimJS w, kind := "success" })) ∧
      ((∃ q ∈ runQuiz q0 calls, toLowerJS q.word = toLowerJS (trimJS w)) →
        addToQuiz (runQuiz q0 calls) w now =
          (runQuiz q0 calls,
            some { message := trimJS w ++ " is already in the Quiz list.",
                   kind := "info" })) ∧
      ((¬ ∃ q ∈ runQuiz q0 calls, toLowerJS q.word = toLowerJS (trimJS w)) →
        addToQuiz (runQuiz q0 calls) w now =
          ({ word := trimJS w, id := String.mk (natStr now) } :: runQuiz q0 calls,
            some { message := "Added to Quiz List: " ++ trimJS w,
                   kind := "success" }))) := by
  refine ⟨runFavorites_nodup calls f0 hf, runQuiz_nodup calls q0 hq, ?_⟩
  intro w now hw
  have hfav := addFavorite_behavior (runFavorites f0 calls) w now hw
  have hquiz := addToQuiz_behavior (runQuiz q0 calls) w now hw
  exact ⟨hfav.1, hfav.2, hquiz.1, hquiz.2⟩

/-- Witness for C9 at a concrete state: `"Ann"` is added, then `"ann "`
(same word up to trim and case) is reported as already present by both
collections. -/
theorem favorites_quiz_invariants_witness :
    FavNoDupCI (runFavorites [] [("Ann", 1)]) ∧
    QuizNoDupCI (runQuiz [] [("Ann", 1)]) ∧
    addFavorite (runFavorites [] [("Ann", 1)]) "ann " 7 =
      (runFavorites [] [("Ann", 1)],
        some { message := trimJS "ann " ++ " is already in favorites.",
               kind := "info" }) ∧
    addToQuiz (runQuiz [] [("Ann", 1)]) "ann " 7 =
      (runQuiz [] [("Ann", 1)],
        some { message := trimJS "ann " ++ " is already in the Quiz list.",
               kind := "info" }) := by
  have h := favorites_quiz_invariants [] [] [("Ann", 1)]
    (by simp [FavNoDupCI]) (by simp [QuizNoDupCI])
  refine ⟨h.1, h.2.1, ?_, ?_⟩
  · exact (h.2.2 "ann " 7 (by decide)).1 ⟨⟨"Ann", 1⟩, by decide, by decide⟩
  · exact (h.2.2 "ann " 7 (by decide)).2.2.1
      ⟨⟨"Ann", String.mk (natStr 1)⟩, by decide, by decide⟩
